import Mathlib

/-!
Verification development for the WebRTC signaling and connection-lifecycle
core of a video-conference application. The definitions below are a shallow
embedding of the provider implemented in `src/contexts` (peer-connection
management, roster reconciliation, negotiation state machine, local media
acquisition, join/leave lifecycle). Pure control flow is translated to Lean
functions; the browser's RTCPeerConnection is modelled as a record whose
fields track the signaling state, ICE state and applied descriptions, with
the standard WebRTC state transitions for applying/rolling back
descriptions. The message relay (a key-value store holding presence,
offers, answers and ICE candidates per room) is modelled as association
lists keyed by (sender, receiver).
-/

namespace VideoConf

/-- Participant identity (a user id string, compared lexicographically as in
the source's `user.uid > senderId`). -/
abbrev Uid := String

/-- Session description payload. -/
abbrev Sdp := String

/-- ICE candidate payload. -/
abbrev Cand := String

/-- RTCPeerConnection signaling state (the subset the source manipulates). -/
inductive SignalingState where
  | stable
  | haveLocalOffer
  | haveRemoteOffer
  | closedSig
  deriving DecidableEq, Repr

/-- RTCPeerConnection ICE connection state. -/
inductive IceConnectionState where
  | iceNew
  | checking
  | connected
  | completed
  | disconnected
  | failed
  | closedIce
  deriving DecidableEq, Repr

/-- Aggregate connection status exposed by the provider
(`connecting | connected | disconnected | failed`). -/
inductive ConnStatus where
  | connecting
  | connected
  | disconnected
  | failed
  deriving DecidableEq, Repr

/-- Model of one RTCPeerConnection: the identity generation (bumped each
time the provider recreates a connection), the initiator role it was
created with, its signaling and ICE states, the applied local/remote
descriptions, the remote ICE candidates applied so far, whether `close()`
has been called, and a counter of completed remote-offer applications
(each `setRemoteDescription(offer)`/`createAnswer` round). -/
structure PC where
  gen : Nat
  initiator : Bool
  signaling : SignalingState
  iceState : IceConnectionState
  localDesc : Option Sdp
  remoteDesc : Option Sdp
  addedCandidates : List Cand
  negotiationCount : Nat
  isClosed : Bool
  deriving DecidableEq, Repr

/-- A freshly constructed RTCPeerConnection (`new RTCPeerConnection(configuration)`). -/
def freshPC (gen : Nat) (initiator : Bool) : PC :=
  { gen := gen
    initiator := initiator
    signaling := .stable
    iceState := .iceNew
    localDesc := none
    remoteDesc := none
    addedCandidates := []
    negotiationCount := 0
    isClosed := false }

/-- The provider's `peerConnections.current` registry: remote uid to live
connection. -/
abbrev ConnMap := List (Uid × PC)

/-- Reading `peerConnections.current[peerId]` (first binding wins; the
registry never holds two bindings for one key). -/
def lookupConn : ConnMap → Uid → Option PC
  | [], _ => none
  | e :: rest, peerId => if e.1 == peerId then some e.2 else lookupConn rest peerId

/-- Deleting `peerConnections.current[peerId]` (keys are unique, so removing
every entry with the key models deleting the one binding). -/
def eraseConn (conns : ConnMap) (peerId : Uid) : ConnMap :=
  conns.filter (fun e => !(e.1 == peerId))

/-- Writing `peerConnections.current[peerId] = pc` (overwrite the binding). -/
def setConn (conns : ConnMap) (peerId : Uid) (pc : PC) : ConnMap :=
  eraseConn conns peerId ++ [(peerId, pc)]

/-- The keys of the registry. -/
def keysOf (conns : ConnMap) : List Uid :=
  conns.map Prod.fst

/-- Result of `createPeerConnection`: the connection handed back to the
caller (`null` on the guard path), the updated registry, and the previous
connection for that peer if one was closed first. -/
structure CreatePCOutcome where
  created : Option PC
  conns : ConnMap
  closedOld : Option PC
  deriving DecidableEq, Repr

/-- The operation `createPeerConnection(peerId, roomId, initiator)`: bails out returning
null when there is no authenticated user or no room id; otherwise, if the
registry already holds a connection for `peerId`, closes it and removes it
before constructing the replacement and storing it. -/
def createPeerConnection (user : Option Uid) (roomId : String) (peerId : Uid)
    (initiator : Bool) (gen : Nat) (conns : ConnMap) : CreatePCOutcome :=
  if user.isNone || roomId == "" then
    { created := none, conns := conns, closedOld := none }
  else
    match lookupConn conns peerId with
    | some old =>
        let pc := freshPC gen initiator
        { created := some pc
          conns := setConn (eraseConn conns peerId) peerId pc
          closedOld := some { old with isClosed := true } }
    | none =>
        let pc := freshPC gen initiator
        { created := some pc
          conns := setConn conns peerId pc
          closedOld := none }

/-- A connection counts toward `connectedPeers` when its ICE state is
connected or completed. -/
def iceConnectedish (pc : PC) : Bool :=
  pc.iceState == .connected || pc.iceState == .completed

/-- A connection counts toward `failedPeers` when its ICE state is failed
or disconnected. -/
def iceFailedish (pc : PC) : Bool :=
  pc.iceState == .failed || pc.iceState == .disconnected

/-- The periodic connection check (`connectionCheckInterval`): connected if
any peer connection's ICE state is connected/completed; otherwise, if the
registry is nonempty, failed when some connection's ICE state is
failed/disconnected and connecting when none is; disconnected when the
registry is empty. -/
def connectionCheckStatus (pcs : List PC) : ConnStatus :=
  let connectedPeers := pcs.filter iceConnectedish
  if connectedPeers.length > 0 then .connected
  else if pcs.length > 0 then
    let failedPeers := pcs.filter iceFailedish
    if failedPeers.length > 0 then .failed
    else .connecting
  else .disconnected

/-- The `createAnswer` call after applying a remote offer, modelled as a
deterministic function of the applied offer. -/
def answerFor (offer : Sdp) : Sdp :=
  "answer:" ++ offer

/-- Rolling back via setLocalDescription with a rollback description on a connection holding a
local offer: the local offer is discarded and the signaling state returns
to stable. -/
def rollbackLocal (pc : PC) : PC :=
  { pc with localDesc := none, signaling := .stable }

/-- The helper `processOffer`: apply the incoming offer as the remote description
(moving through have-remote-offer), create an answer, set it as the local
description (reaching stable) and hand the answer back for publication.
The negotiation counter records that a remote-offer/answer round ran.
`processOffer` performs no removal of the offer message from the relay. -/
def processOffer (pc : PC) (offerSdp : Sdp) : PC × Sdp :=
  let pc1 := { pc with remoteDesc := some offerSdp, signaling := .haveRemoteOffer }
  let ans := answerFor offerSdp
  let pc2 := { pc1 with
    localDesc := some ans
    signaling := .stable
    negotiationCount := pc1.negotiationCount + 1 }
  (pc2, ans)

/-- What the offers listener did with one incoming offer. -/
inductive OfferAction where
  | ignoredGlareWin
  | rolledBackAndAnswered
  | answered
  | deferredUnstable
  deriving DecidableEq, Repr

/-- Outcome of the offers listener on one incoming offer for an existing
connection: the updated connection, the answer published to the relay (if
any), and which path was taken. -/
structure OfferOutcome where
  pc : PC
  publishedAnswer : Option Sdp
  action : OfferAction
  deriving DecidableEq, Repr

/-- The offers listener body for a single offer from `senderId` addressed
to `selfId`, given the existing connection `pc`. In have-local-offer
(glare) the identities are compared: if `selfId > senderId` this side wins
and the incoming offer is ignored; otherwise the local offer is rolled
back and the incoming offer is processed. In any other non-stable state
the offer is deferred (the source schedules a delayed reset). From stable
the offer is processed directly. -/
def recvOffer (selfId senderId : Uid) (pc : PC) (offerSdp : Sdp) : OfferOutcome :=
  if pc.signaling == .haveLocalOffer then
    if senderId.data < selfId.data then
      { pc := pc, publishedAnswer := none, action := .ignoredGlareWin }
    else
      let r := processOffer (rollbackLocal pc) offerSdp
      { pc := r.1, publishedAnswer := some r.2, action := .rolledBackAndAnswered }
  else if !(pc.signaling == .stable) then
    { pc := pc, publishedAnswer := none, action := .deferredUnstable }
  else
    let r := processOffer pc offerSdp
    { pc := r.1, publishedAnswer := some r.2, action := .answered }

/-- Outcome of the answers listener on one incoming answer: the updated
connection and whether the message was applied (and hence removed from
the relay afterwards). -/
structure AnswerOutcome where
  pc : PC
  consumed : Bool
  deriving DecidableEq, Repr

/-- The answers listener body for a single answer, given the existing
connection: applied as the remote description only from have-local-offer
(then the processed message is removed); otherwise skipped. -/
def recvAnswer (pc : PC) (answerSdp : Sdp) : AnswerOutcome :=
  if pc.signaling == .haveLocalOffer then
    { pc := { pc with remoteDesc := some answerSdp, signaling := .stable }
      consumed := true }
  else
    { pc := pc, consumed := false }

/-- A per-room message store keyed by (sender, receiver). -/
abbrev MsgStore := List ((Uid × Uid) × Sdp)

/-- The relay write `set(ref(...))`: overwrite the binding at a (sender, receiver) path. -/
def setMsg (store : MsgStore) (key : Uid × Uid) (sdp : Sdp) : MsgStore :=
  store.filter (fun e => !(e.1 == key)) ++ [(key, sdp)]

/-- The relay delete `remove(ref(...))`: delete the binding at a (sender, receiver) path. -/
def eraseMsg (store : MsgStore) (key : Uid × Uid) : MsgStore :=
  store.filter (fun e => !(e.1 == key))

/-- Result of the offers listener on one offer message, together with the
relay stores it touches. -/
structure OfferMsgResult where
  pc : PC
  offers : MsgStore
  answers : MsgStore
  deriving DecidableEq, Repr

/-- One offer message from `senderId` to `selfId` processed by the offers
listener: the connection is updated per `recvOffer`; when an answer is
produced it is written to `answers/{selfId}/{senderId}`; the offer message
itself is never removed from the offers store (the source has no removal
on this path). -/
def handleOfferMessage (selfId senderId : Uid) (pc : PC) (offerSdp : Sdp)
    (offers answers : MsgStore) : OfferMsgResult :=
  let r := recvOffer selfId senderId pc offerSdp
  { pc := r.pc
    offers := offers
    answers :=
      match r.publishedAnswer with
      | some a => setMsg answers (selfId, senderId) a
      | none => answers }

/-- Result of the answers listener on one answer message. -/
structure AnswerMsgResult where
  pc : Option PC
  answers : MsgStore
  deriving DecidableEq, Repr

/-- One answer message from `senderId` to `selfId` processed by the
answers listener: warned and dropped when no connection exists; applied
and then removed from `answers/{senderId}/{selfId}` when the connection is
in have-local-offer; skipped otherwise. -/
def handleAnswerMessage (selfId senderId : Uid) (pcOpt : Option PC)
    (answerSdp : Sdp) (answers : MsgStore) : AnswerMsgResult :=
  match pcOpt with
  | none => { pc := none, answers := answers }
  | some pc =>
    let r := recvAnswer pc answerSdp
    if r.consumed then
      { pc := some r.pc, answers := eraseMsg answers (senderId, selfId) }
    else
      { pc := some pc, answers := answers }

/-- The per-pair ICE candidate bucket `candidates/{from}/{to}`: push key
to candidate payload. -/
abbrev CandBucket := List (Nat × Cand)

/-- Result of the candidates listener on one candidate: the updated
connection, the bucket after any cleanup, and whether `addIceCandidate`
was invoked. -/
structure CandMsgResult where
  pc : PC
  bucket : CandBucket
  invokedAdd : Bool
  deriving DecidableEq, Repr

/-- One candidate processed by the candidates listener: skipped entirely
(neither applied nor removed) while the connection has no remote
description; otherwise `addIceCandidate` is invoked and the first bucket
entry whose payload equals the candidate is removed. -/
def handleCandidateMessage (pc : PC) (c : Cand) (bucket : CandBucket) : CandMsgResult :=
  if pc.remoteDesc.isNone then
    { pc := pc, bucket := bucket, invokedAdd := false }
  else
    let pc1 := { pc with addedCandidates := pc.addedCandidates ++ [c] }
    let bucket1 :=
      match (bucket.find? (fun e => e.2 == c)).map Prod.fst with
      | some k => bucket.filter (fun e => !(e.1 == k))
      | none => bucket
    { pc := pc1, bucket := bucket1, invokedAdd := true }

/-- The `createOffer` call, modelled as a deterministic function of the connection
generation. -/
def offerFor (pc : PC) : Sdp :=
  "offer:" ++ toString pc.gen

/-- Outcome of the negotiation-needed handler. -/
structure NegotiationOutcome where
  pc : PC
  publishedOffer : Option Sdp
  deriving DecidableEq, Repr

/-- The `onnegotiationneeded` handler: only for a connection created as
initiator with a room and user present; returns without creating an offer
whenever the signaling state is not stable; otherwise creates an offer,
sets it as the local description and publishes it. -/
def onNegotiationNeeded (user : Option Uid) (roomId : String) (pc : PC) :
    NegotiationOutcome :=
  if pc.initiator && !(roomId == "") && user.isSome then
    if !(pc.signaling == .stable) then
      { pc := pc, publishedOffer := none }
    else
      let offer := offerFor pc
      { pc := { pc with localDesc := some offer, signaling := .haveLocalOffer }
        publishedOffer := some offer }
  else
    { pc := pc, publishedOffer := none }

/-- Two-party glare scenario state: participant A's connection to B, B's
connection to A, and the pending answer messages each side has published
to the relay (none until a side answers). Both initial offers are already
in the relay, so the deliverable events below may arrive in any order. -/
structure GlareSys where
  pcA : PC
  pcB : PC
  answerFromA : Option Sdp
  answerFromB : Option Sdp
  deriving DecidableEq, Repr

/-- Deliverable events in the two-party glare scenario: B's offer reaching
A's offers listener, A's offer reaching B's offers listener, and each
side's published answer reaching the other side's answers listener. -/
inductive GlareEvent where
  | offerToA
  | offerToB
  | answerToA
  | answerToB
  deriving DecidableEq, Repr

/-- Both sides have simultaneously initiated: each connection holds its own
local offer in have-local-offer, and no answers exist yet. -/
def glareInit (offerA offerB : Sdp) : GlareSys :=
  { pcA := { freshPC 0 true with localDesc := some offerA, signaling := .haveLocalOffer }
    pcB := { freshPC 0 true with localDesc := some offerB, signaling := .haveLocalOffer }
    answerFromA := none
    answerFromB := none }

/-- Deliver one event: offers run the offers listener (`recvOffer`) on the
receiving side, publishing any produced answer; answer deliveries run the
answers listener (`recvAnswer`) when an answer has been published. -/
def glareStep (idA idB : Uid) (offerA offerB : Sdp) (s : GlareSys) :
    GlareEvent → GlareSys
  | .offerToA =>
      let r := recvOffer idA idB s.pcA offerB
      { s with
        pcA := r.pc
        answerFromA :=
          match r.publishedAnswer with
          | some a => some a
          | none => s.answerFromA }
  | .offerToB =>
      let r := recvOffer idB idA s.pcB offerA
      { s with
        pcB := r.pc
        answerFromB :=
          match r.publishedAnswer with
          | some a => some a
          | none => s.answerFromB }
  | .answerToA =>
      match s.answerFromB with
      | some a => { s with pcA := (recvAnswer s.pcA a).pc }
      | none => s
  | .answerToB =>
      match s.answerFromA with
      | some a => { s with pcB := (recvAnswer s.pcB a).pc }
      | none => s

/-- Run the glare scenario from simultaneous initiation through a given
arrival order of events. -/
def glareRun (idA idB : Uid) (offerA offerB : Sdp) (evs : List GlareEvent) : GlareSys :=
  evs.foldl (glareStep idA idB offerA offerB) (glareInit offerA offerB)

/-- The convergent outcome the glare tie-break aims for when `idA < idB`:
both connections stable, A holding B's offer as remote description with
its answer local (A's own offer rolled back), and B holding its own offer
local with A's answer remote. -/
def glareConverged (offerB : Sdp) (s : GlareSys) : Prop :=
  s.pcA.signaling = .stable
    ∧ s.pcA.remoteDesc = some offerB
    ∧ s.pcA.localDesc = some (answerFor offerB)
    ∧ s.pcB.signaling = .stable
    ∧ s.pcB.localDesc = some offerB
    ∧ s.pcB.remoteDesc = some (answerFor offerB)

/-- A peer record in the provider's `peers` state. -/
structure Peer where
  id : Uid
  displayName : String
  deriving DecidableEq, Repr

/-- The state the roster reconciler (participants listener) operates on:
the peer list, the connection registry, and the generation counter used
for fresh connections. -/
structure ReconcilerState where
  peers : List Peer
  conns : ConnMap
  nextGen : Nat
  deriving DecidableEq, Repr

/-- The provider's state before any room activity. -/
def reconInit : ReconcilerState :=
  { peers := [], conns := [], nextGen := 0 }

/-- One iteration of the participants listener's add loop: for a roster
entry that is not self and has no connection yet, add a peer record
(unless already listed) and create an initiator connection. -/
def addParticipant (user : Uid) (roomId : String) (st : ReconcilerState)
    (e : Uid × String) : ReconcilerState :=
  if e.1 != user && (lookupConn st.conns e.1).isNone then
    { peers :=
        if st.peers.any (fun p => p.id == e.1) then st.peers
        else st.peers ++ [{ id := e.1, displayName := e.2 }]
      conns := (createPeerConnection (some user) roomId e.1 true st.nextGen st.conns).conns
      nextGen := st.nextGen + 1 }
  else st

/-- The participants listener's add phase over a whole presence snapshot. -/
def reconcileAdd (user : Uid) (roomId : String) (snap : List (Uid × String))
    (st : ReconcilerState) : ReconcilerState :=
  snap.foldl (addParticipant user roomId) st

/-- The participants listener run on a presence snapshot: nothing happens
when the snapshot is empty (`snapshot.exists()` is false); otherwise new
roster entries are added (peer record plus initiator connection), the peer
list is filtered to roster members, and connections to departed ids are
closed and dropped. Returns the new state and the connections closed. -/
def reconcile (user : Uid) (roomId : String) (snap : List (Uid × String))
    (st : ReconcilerState) : ReconcilerState × List PC :=
  if snap.isEmpty then (st, [])
  else
    let st1 := reconcileAdd user roomId snap st
    let peers2 := st1.peers.filter (fun p => snap.any (fun e => e.1 == p.id))
    let removed := st1.conns.filter (fun e => !(snap.any (fun s => s.1 == e.1)))
    let conns2 := st1.conns.filter (fun e => snap.any (fun s => s.1 == e.1))
    ({ peers := peers2, conns := conns2, nextGen := st1.nextGen },
     removed.map (fun e => { e.2 with isClosed := true }))

/-- A whole sequence of presence snapshots processed in order. -/
def reconcileSeq (user : Uid) (roomId : String)
    (snaps : List (List (Uid × String))) (st : ReconcilerState) : ReconcilerState :=
  snaps.foldl (fun s snap => (reconcile user roomId snap s).1) st

/-- The peer list contains a record for id `i`. -/
def PeersHas (st : ReconcilerState) (i : Uid) : Prop :=
  ∃ p ∈ st.peers, p.id = i

/-- The connection registry holds a connection for id `i`. -/
def ConnsHas (st : ReconcilerState) (i : Uid) : Prop :=
  lookupConn st.conns i ≠ none

/-- Invariant maintained by the reconciler: self never appears in the peer
list, and every connected id is listed as a peer (hence self also never
has a connection). -/
def ReconInv (user : Uid) (st : ReconcilerState) : Prop :=
  (∀ p ∈ st.peers, p.id ≠ user)
    ∧ (∀ k, ConnsHas st k → PeersHas st k)

/-- Which capture devices are able to deliver a track. -/
structure MediaEnv where
  videoWorks : Bool
  audioWorks : Bool
  deriving DecidableEq, Repr

/-- What kind of stream an acquisition produced. -/
inductive StreamKind where
  | audioVideo
  | audioOnly
  | videoOnly
  deriving DecidableEq, Repr

/-- The call `navigator.mediaDevices.getUserMedia`: the whole request fails when any
requested kind cannot be delivered; otherwise a stream with the requested
tracks is produced. -/
def getUserMedia (env : MediaEnv) (video audio : Bool) : Option StreamKind :=
  if (video && !env.videoWorks) || (audio && !env.audioWorks) then none
  else if video && audio then some .audioVideo
  else if audio then some .audioOnly
  else if video then some .videoOnly
  else none

/-- Whether a stream has video tracks. -/
def hasVideoTracks : StreamKind → Bool
  | .audioVideo => true
  | .videoOnly => true
  | .audioOnly => false

/-- Whether a stream has audio tracks. -/
def hasAudioTracks : StreamKind → Bool
  | .audioVideo => true
  | .audioOnly => true
  | .videoOnly => false

/-- The error surfaced when media acquisition fails entirely. -/
def mediaErrorMsg : String :=
  "Failed to access camera and microphone. Please check your permissions."

/-- Outcome of `initLocalStream`: the stream obtained (if any), the
`hasVideo`/`hasAudio` flags set, and the error surfaced (if any). -/
structure MediaResult where
  stream : Option StreamKind
  hasVideo : Bool
  hasAudio : Bool
  error : Option String
  deriving DecidableEq, Repr

/-- The body of `initLocalStream` for `video = false` (the audio-only
degradation step): try the requested constraints; on failure, when audio
was requested, retry audio-only once more, and on a second failure clear
both flags, surface the media error and yield no stream. -/
def initLocalStreamNoVideo (env : MediaEnv) (audio : Bool) : MediaResult :=
  match getUserMedia env false audio with
  | some s =>
      { stream := some s, hasVideo := hasVideoTracks s
        hasAudio := hasAudioTracks s, error := none }
  | none =>
      if audio then
        match getUserMedia env false true with
        | some s =>
            { stream := some s, hasVideo := false, hasAudio := true, error := none }
        | none =>
            { stream := none, hasVideo := false, hasAudio := false
              error := some mediaErrorMsg }
      else
        { stream := none, hasVideo := false, hasAudio := false
          error := some mediaErrorMsg }

/-- The operation `initLocalStream(video, audio)`: request the constraints; when a
video-inclusive request fails, fall back to the audio-only path (the
source's recursive call `initLocalStream(false, true)`, unfolded here
since the recursion depth is one). -/
def initLocalStream (env : MediaEnv) (video audio : Bool) : MediaResult :=
  if video then
    match getUserMedia env true audio with
    | some s =>
        { stream := some s, hasVideo := hasVideoTracks s
          hasAudio := hasAudioTracks s, error := none }
    | none => initLocalStreamNoVideo env true
  else initLocalStreamNoVideo env audio

/-- How the media segment of `joinRoom` ends. -/
inductive JoinMediaOutcome where
  | proceeded (stream : Option StreamKind)
  | abortedThrow (err : String)
  deriving DecidableEq, Repr

/-- The local-stream segment of `joinRoom`: when no local stream exists
yet, acquisition is attempted and `joinRoom` sets the error state and
throws when it yields no stream; otherwise the join proceeds. -/
def joinRoomMediaStep (env : MediaEnv) (localStream : Option StreamKind) :
    JoinMediaOutcome :=
  match localStream with
  | none =>
      match (initLocalStream env true true).stream with
      | none => .abortedThrow "Failed to initialize local stream"
      | some s => .proceeded (some s)
  | some s => .proceeded (some s)

/-- The join-guard state `joinRoom` reads and writes before doing any
room work. -/
structure JoinGuardState where
  joinAttempts : Nat
  joinAttempted : Bool
  currentRoomId : Option String
  webRTCError : Option String
  connectionStatus : ConnStatus
  deriving DecidableEq, Repr

/-- How the guard section of `joinRoom` ends. -/
inductive JoinGuardOutcome where
  | thrownNoUser
  | returnedAlreadyJoining
  | thrownTooManyAttempts
  | proceeded
  deriving DecidableEq, Repr

/-- The hard error surfaced when the join-attempt counter overflows. -/
def tooManyAttemptsMsg : String :=
  "Too many join attempts, aborting to prevent infinite loop"

/-- The guard section of `joinRoom`: reject when unauthenticated; return
quietly when a join for the same room is already underway; otherwise bump
the attempt counter, and when it exceeds 3 surface the hard error, reset
the counter and throw; else mark the join underway, clear the error and
move the status to connecting. -/
def joinRoomGuard (user : Option Uid) (roomId : String) (st : JoinGuardState) :
    JoinGuardState × JoinGuardOutcome :=
  if user.isNone then
    ({ st with webRTCError := some "Cannot join room: User not authenticated" },
     .thrownNoUser)
  else if st.joinAttempted && st.currentRoomId == some roomId then
    (st, .returnedAlreadyJoining)
  else
    let attempts := st.joinAttempts + 1
    if attempts > 3 then
      ({ st with joinAttempts := 0, webRTCError := some tooManyAttemptsMsg },
       .thrownTooManyAttempts)
    else
      ({ st with
          joinAttempts := attempts
          joinAttempted := true
          webRTCError := none
          connectionStatus := .connecting },
       .proceeded)

/-- The whole provider state touched by `leaveRoom`. -/
structure WebRTCState where
  user : Option Uid
  currentRoomId : Option String
  localStream : Option StreamKind
  peers : List Peer
  conns : ConnMap
  connectionStatus : ConnStatus
  webRTCError : Option String
  joinAttempts : Nat
  joinAttempted : Bool
  isScreenSharing : Bool
  isRecording : Bool
  listenersSetup : Bool
  deriving DecidableEq, Repr

/-- The relay state for one room: presence entries and the three message
namespaces. -/
structure Relay where
  participants : List (Uid × String)
  offers : MsgStore
  answers : MsgStore
  candidates : List ((Uid × Uid) × CandBucket)
  deriving DecidableEq, Repr

/-- The cleanup `cleanupSignalingData(roomId, userId)`: remove every offer, answer and
candidate bucket written by this user, and every one addressed to this
user by another sender. -/
def cleanupSignalingData (uid : Uid) (relay : Relay) : Relay :=
  { relay with
    offers := relay.offers.filter (fun e => !(e.1.1 == uid) && !(e.1.2 == uid))
    answers := relay.answers.filter (fun e => !(e.1.1 == uid) && !(e.1.2 == uid))
    candidates := relay.candidates.filter (fun e => !(e.1.1 == uid) && !(e.1.2 == uid)) }

/-- The operation `leaveRoom()`: returns immediately when there is no current room or no
authenticated user; otherwise cleans the signaling data, removes the
presence entry, tears down listeners, closes and clears every connection,
empties the peer list, and resets room id, status and the join flags. The
screen-share and recording flags themselves are not written here (the
source stops the underlying tracks/recorder without setting those state
flags in `leaveRoom`). -/
def leaveRoom (st : WebRTCState) (relay : Relay) : WebRTCState × Relay :=
  match st.currentRoomId, st.user with
  | some _, some uid =>
      let relay1 := cleanupSignalingData uid relay
      let relay2 :=
        { relay1 with participants := relay1.participants.filter (fun e => !(e.1 == uid)) }
      ({ st with
          listenersSetup := false
          conns := []
          peers := []
          currentRoomId := none
          connectionStatus := .disconnected
          joinAttempted := false
          joinAttempts := 0 },
       relay2)
  | _, _ => (st, relay)

/-- A concrete offers store holding one offer from "b" to "a". -/
def c5Offers : MsgStore := [(("b", "a"), "sdp-b")]

/-- Participant "a", in stable state, processes the offer from "b". -/
def c5Run1 : OfferMsgResult :=
  handleOfferMessage "a" "b" (freshPC 0 false) "sdp-b" c5Offers []

/-- The same offer message delivered again (the relay redelivers the
namespace snapshot and the offer is still in it). -/
def c5Run2 : OfferMsgResult :=
  handleOfferMessage "a" "b" c5Run1.pc "sdp-b" c5Run1.offers c5Run1.answers

/-! ### Association-list facts about the connection registry -/

theorem lookupConn_filter_key (conns : ConnMap) (p : Uid → Bool) (i : Uid) :
    lookupConn (conns.filter (fun e => p e.1)) i =
      if p i then lookupConn conns i else none := by
  induction conns with
  | nil => simp [lookupConn]
  | cons e rest ih =>
      by_cases hei : e.1 = i
      · subst hei
        by_cases hp : p e.1
        · simp [List.filter_cons, hp, lookupConn, ih]
        · simp [List.filter_cons, hp, lookupConn, ih]
      · by_cases hp : p e.1
        · simp [List.filter_cons, hp, lookupConn, hei, ih]
        · simp only [List.filter_cons, hp, ih, Bool.false_eq_true, if_false]
          by_cases hpi : p i
          · simp [hpi, lookupConn, hei]
          · simp [hpi]

theorem lookupConn_eraseConn_self (conns : ConnMap) (k : Uid) :
    lookupConn (eraseConn conns k) k = none := by
  have h := lookupConn_filter_key conns (fun x => !(x == k)) k
  simpa [eraseConn] using h

theorem lookupConn_eraseConn_ne (conns : ConnMap) (k i : Uid) (h : i ≠ k) :
    lookupConn (eraseConn conns k) i = lookupConn conns i := by
  have hf := lookupConn_filter_key conns (fun x => !(x == k)) i
  simpa [eraseConn, h] using hf

theorem lookupConn_append (l₁ l₂ : ConnMap) (i : Uid) :
    lookupConn (l₁ ++ l₂) i =
      match lookupConn l₁ i with
      | some pc => some pc
      | none => lookupConn l₂ i := by
  induction l₁ with
  | nil => rfl
  | cons e rest ih =>
      by_cases h : e.1 = i
      · simp [lookupConn, h]
      · simp [lookupConn, h, ih]

theorem lookupConn_setConn_self (conns : ConnMap) (k : Uid) (pc : PC) :
    lookupConn (setConn conns k pc) k = some pc := by
  have h := lookupConn_eraseConn_self conns k
  simp [setConn, lookupConn_append, h, lookupConn]

theorem lookupConn_setConn_ne (conns : ConnMap) (k i : Uid) (pc : PC) (h : i ≠ k) :
    lookupConn (setConn conns k pc) i = lookupConn conns i := by
  have he := lookupConn_eraseConn_ne conns k i h
  cases hl : lookupConn (eraseConn conns k) i with
  | some pc' => simp [setConn, lookupConn_append, hl, ← he, hl]
  | none =>
      have hk : ¬ k = i := fun hh => h hh.symm
      simp [setConn, lookupConn_append, hl, lookupConn, hk, ← he, hl]

theorem eraseConn_of_lookup_none (conns : ConnMap) (k : Uid)
    (h : lookupConn conns k = none) : eraseConn conns k = conns := by
  induction conns with
  | nil => rfl
  | cons e rest ih =>
      by_cases he : e.1 = k
      · simp [lookupConn, he] at h
      · simp [lookupConn, he] at h
        simp [eraseConn, List.filter_cons, he] at ih ⊢
        exact ih h

theorem keysOf_eraseConn (conns : ConnMap) (k : Uid) :
    keysOf (eraseConn conns k) = (keysOf conns).filter (fun x => !(x == k)) := by
  induction conns with
  | nil => rfl
  | cons e rest ih =>
      by_cases he : e.1 = k
      · simp [keysOf, eraseConn, List.filter_cons, he] at ih ⊢
        simpa [keysOf, eraseConn] using ih
      · simp only [keysOf, eraseConn, List.filter_cons] at ih ⊢
        simp [he, ih]

theorem keysOf_setConn (conns : ConnMap) (k : Uid) (pc : PC)
    (h : (keysOf conns).Nodup) : (keysOf (setConn conns k pc)).Nodup := by
  have hnodup : (keysOf (eraseConn conns k)).Nodup := by
    rw [keysOf_eraseConn]; exact h.filter _
  have hk : k ∉ keysOf (eraseConn conns k) := by
    rw [keysOf_eraseConn]
    intro hmem
    have := List.of_mem_filter hmem
    simp at this
  have hkeys : keysOf (setConn conns k pc) = keysOf (eraseConn conns k) ++ [k] := by
    simp [keysOf, setConn]
  rw [hkeys]
  simp [List.nodup_append, hnodup, hk]

theorem filter_length_pos_iff_any (l : List PC) (p : PC → Bool) :
    0 < (l.filter p).length ↔ l.any p = true := by
  rw [List.length_pos, Ne, List.filter_eq_nil_iff]
  simp [List.any_eq_true]

/-! ### Claim theorems -/

/-- C2: every call to `createPeerConnection` with a user and room present,
when an entry for `peerId` already exists, closes the existing connection
and replaces it with the newly created one; other entries are untouched
and the registry keeps at most one binding per peer id. -/
theorem C2_createPeerConnection (user : Option Uid) (roomId : String) (peerId : Uid)
    (initiator : Bool) (gen : Nat) (conns : ConnMap)
    (huser : user.isSome = true) (hroom : roomId ≠ "") :
    lookupConn (createPeerConnection user roomId peerId initiator gen conns).conns peerId
        = some (freshPC gen initiator)
    ∧ (createPeerConnection user roomId peerId initiator gen conns).created
        = some (freshPC gen initiator)
    ∧ (∀ old, lookupConn conns peerId = some old →
        (createPeerConnection user roomId peerId initiator gen conns).closedOld
          = some { old with isClosed := true })
    ∧ (∀ i, i ≠ peerId →
        lookupConn (createPeerConnection user roomId peerId initiator gen conns).conns i
          = lookupConn conns i)
    ∧ ((keysOf conns).Nodup →
        (keysOf (createPeerConnection user roomId peerId initiator gen conns).conns).Nodup) := by
  obtain ⟨u, rfl⟩ := Option.isSome_iff_exists.mp huser
  have hbeq : (roomId == "") = false := by
    simpa using hroom
  cases hl : lookupConn conns peerId with
  | some old =>
      have herase := eraseConn_of_lookup_none (eraseConn conns peerId) peerId
        (lookupConn_eraseConn_self conns peerId)
      refine ⟨?_, ?_, ?_, ?_, ?_⟩
      · simp [createPeerConnection, hbeq, hl, lookupConn_setConn_self]
      · simp [createPeerConnection, hbeq, hl]
      · intro old2 hl2
        have hoo : old2 = old := (Option.some.inj hl2).symm
        subst hoo
        simp [createPeerConnection, hbeq, hl]
      · intro i hi
        simp only [createPeerConnection, hbeq, hl]
        simp only [Option.isNone_some, Bool.false_or, Bool.false_eq_true, if_false]
        rw [lookupConn_setConn_ne _ _ _ _ hi, lookupConn_eraseConn_ne _ _ _ hi]
      · intro hnodup
        simp only [createPeerConnection, hbeq, hl]
        simp only [Option.isNone_some, Bool.false_or, Bool.false_eq_true, if_false]
        refine keysOf_setConn _ _ _ ?_
        rw [keysOf_eraseConn]
        exact hnodup.filter _
  | none =>
      refine ⟨?_, ?_, ?_, ?_, ?_⟩
      · simp [createPeerConnection, hbeq, hl, lookupConn_setConn_self]
      · simp [createPeerConnection, hbeq, hl]
      · intro old2 hl2
        exact absurd hl2 (by simp)
      · intro i hi
        simp only [createPeerConnection, hbeq, hl]
        simp only [Option.isNone_some, Bool.false_or, Bool.false_eq_true, if_false]
        rw [lookupConn_setConn_ne _ _ _ _ hi]
      · intro hnodup
        simp only [createPeerConnection, hbeq, hl]
        simp only [Option.isNone_some, Bool.false_or, Bool.false_eq_true, if_false]
        exact keysOf_setConn _ _ _ hnodup

/-- C2 witness: recreating the connection for "p" closes the old
connection first and the registry then holds exactly the fresh one. -/
theorem C2_witness :
    lookupConn (createPeerConnection (some "u") "r" "p" true 5
        [("p", freshPC 0 false)]).conns "p" = some (freshPC 5 true)
    ∧ (createPeerConnection (some "u") "r" "p" true 5
        [("p", freshPC 0 false)]).closedOld
      = some { freshPC 0 false with isClosed := true } := by
  have h := C2_createPeerConnection (some "u") "r" "p" true 5
    [("p", freshPC 0 false)] (by decide) (by decide)
  exact ⟨h.1, h.2.2.1 _ (by decide)⟩

/-- C3 counterexample: with one connection in ICE state checking and one
failed, the periodic check reports the aggregate as failed although not
all live connections are failed (the claim allows failed only when all
connections share that state, and prescribes connecting here). -/
theorem C3_counterexample :
    connectionCheckStatus
        [{ freshPC 0 true with iceState := IceConnectionState.checking },
         { freshPC 1 true with iceState := IceConnectionState.failed }]
      = ConnStatus.failed
    ∧ ¬ (∀ pc ∈ [{ freshPC 0 true with iceState := IceConnectionState.checking },
          { freshPC 1 true with iceState := IceConnectionState.failed }],
          pc.iceState = IceConnectionState.failed) := by
  decide

/-- C3 amended: the aggregate status is connected when any connection's
ICE state is connected/completed; otherwise, when at least one connection
exists, it is failed when at least one connection's ICE state is failed or
disconnected and connecting when none is; it is disconnected exactly when
no live connection exists. -/
theorem C3_connectionStatus (pcs : List PC) :
    (pcs.any iceConnectedish = true → connectionCheckStatus pcs = .connected)
    ∧ (pcs.any iceConnectedish = false → pcs ≠ [] →
        ((connectionCheckStatus pcs = .failed ↔ pcs.any iceFailedish = true)
          ∧ (connectionCheckStatus pcs = .connecting ↔ pcs.any iceFailedish = false)))
    ∧ (pcs = [] → connectionCheckStatus pcs = .disconnected) := by
  refine ⟨?_, ?_, ?_⟩
  · intro hc
    have hpos : 0 < (pcs.filter iceConnectedish).length :=
      (filter_length_pos_iff_any pcs iceConnectedish).mpr hc
    simp [connectionCheckStatus, hpos]
  · intro hc hne
    have hzero : ¬ 0 < (pcs.filter iceConnectedish).length := by
      rw [filter_length_pos_iff_any]
      simp [hc]
    have hlen : 0 < pcs.length := List.length_pos.mpr hne
    by_cases hf : pcs.any iceFailedish
    · have hfpos : 0 < (pcs.filter iceFailedish).length :=
        (filter_length_pos_iff_any pcs iceFailedish).mpr hf
      simp [connectionCheckStatus, hzero, hlen, hfpos, hf]
    · have hfzero : ¬ 0 < (pcs.filter iceFailedish).length := by
        rw [filter_length_pos_iff_any]
        simpa using hf
      simp [connectionCheckStatus, hzero, hlen, hfzero]
      simpa using hf
  · intro h
    subst h
    rfl

/-- C3 witness: with a single connected peer the aggregate is connected. -/
theorem C3_witness :
    connectionCheckStatus [{ freshPC 0 true with iceState := IceConnectionState.connected }]
      = ConnStatus.connected :=
  (C3_connectionStatus _).1 (by decide)

/-- C6: the negotiation-needed handler publishes an offer only when the
connection was created as initiator and its signaling state is stable, in
which case the connection moves to have-local-offer; in any non-stable
state it returns without touching the connection. -/
theorem C6_negotiationGuard (user : Option Uid) (roomId : String) (pc : PC) :
    (∀ o, (onNegotiationNeeded user roomId pc).publishedOffer = some o →
        pc.signaling = .stable ∧ pc.initiator = true
          ∧ (onNegotiationNeeded user roomId pc).pc.signaling = .haveLocalOffer)
    ∧ (pc.signaling ≠ .stable →
        onNegotiationNeeded user roomId pc = { pc := pc, publishedOffer := none }) := by
  constructor
  · intro o h
    by_cases hg : (pc.initiator && !(roomId == "") && user.isSome) = true
    · by_cases hs : pc.signaling = .stable
      · refine ⟨hs, ?_, ?_⟩
        · have := hg
          simp [Bool.and_eq_true] at this
          exact this.1.1
        · simp [onNegotiationNeeded, hg, hs]
      · exfalso
        have hss : (pc.signaling == SignalingState.stable) = false := by
          simpa using hs
        simp [onNegotiationNeeded, hg, hss] at h
    · exfalso
      have hg' : (pc.initiator && !(roomId == "") && user.isSome) = false := by
        simpa using hg
      simp [onNegotiationNeeded, hg'] at h
  · intro hs
    have hss : (pc.signaling == SignalingState.stable) = false := by
      simpa using hs
    by_cases hg : (pc.initiator && !(roomId == "") && user.isSome) = true
    · simp [onNegotiationNeeded, hg, hss]
    · have hg' : (pc.initiator && !(roomId == "") && user.isSome) = false := by
        simpa using hg
      simp [onNegotiationNeeded, hg']

/-- C6 witness: from have-local-offer the handler does nothing even for an
initiator with user and room present. -/
theorem C6_witness :
    onNegotiationNeeded (some "u") "r"
        { freshPC 0 true with signaling := SignalingState.haveLocalOffer }
      = { pc := { freshPC 0 true with signaling := SignalingState.haveLocalOffer }
          publishedOffer := none } :=
  (C6_negotiationGuard (some "u") "r" _).2 (by decide)

/-- C7: an ICE candidate is neither applied nor consumed while the
connection has no remote description; once a remote description is set,
the candidate is applied and the matching relay entry is removed; and
`addIceCandidate` is invoked only on connections with a remote
description. -/
theorem C7_candidateGuard (pc : PC) (c : Cand) (bucket : CandBucket) :
    (pc.remoteDesc = none →
        handleCandidateMessage pc c bucket
          = { pc := pc, bucket := bucket, invokedAdd := false })
    ∧ (pc.remoteDesc ≠ none →
        (handleCandidateMessage pc c bucket).pc.addedCandidates
            = pc.addedCandidates ++ [c]
          ∧ (handleCandidateMessage pc c bucket).invokedAdd = true
          ∧ (∀ e, bucket.find? (fun x => x.2 == c) = some e →
              (handleCandidateMessage pc c bucket).bucket
                  = bucket.filter (fun x => !(x.1 == e.1))
                ∧ e ∉ (handleCandidateMessage pc c bucket).bucket))
    ∧ ((handleCandidateMessage pc c bucket).invokedAdd = true → pc.remoteDesc ≠ none) := by
  refine ⟨?_, ?_, ?_⟩
  · intro h
    simp [handleCandidateMessage, h]
  · intro h
    have hn : pc.remoteDesc.isNone = false := by
      cases hd : pc.remoteDesc with
      | none => exact absurd hd h
      | some d => rfl
    refine ⟨?_, ?_, ?_⟩
    · simp [handleCandidateMessage, hn]
    · simp [handleCandidateMessage, hn]
    · intro e he
      constructor
      · simp [handleCandidateMessage, hn, he]
      · simp only [handleCandidateMessage, hn, he]
        intro hmem
        simp only [Bool.false_eq_true, if_false, Option.map_some] at hmem
        have := List.of_mem_filter hmem
        simp at this
  · intro h
    intro hd
    have hn : pc.remoteDesc.isNone = true := by simp [hd]
    simp [handleCandidateMessage, hn] at h

/-- C7 witness: with a remote description applied, the candidate is added
and its relay entry removed. -/
theorem C7_witness :
    (handleCandidateMessage { freshPC 0 false with remoteDesc := some "o" } "cand"
        [(7, "cand")]).pc.addedCandidates = ["cand"]
    ∧ (handleCandidateMessage { freshPC 0 false with remoteDesc := some "o" } "cand"
        [(7, "cand")]).bucket = [] := by
  have h := C7_candidateGuard { freshPC 0 false with remoteDesc := some "o" } "cand"
    [(7, "cand")]
  refine ⟨?_, ?_⟩
  · have := (h.2.1 (by decide)).1
    simpa [freshPC] using this
  · have := ((h.2.1 (by decide)).2.2 (7, "cand") (by decide)).1
    simpa using this

/-- C9: once the incremented join-attempt counter exceeds 3, `joinRoom`
surfaces the hard error, resets the counter to 0 and aborts by throwing,
leaving the current room id and the join-in-progress flag untouched; and a
join can only proceed while the stored counter is below 3, capping
consecutive attempts at 3. -/
theorem C9_joinAttemptsCap (user : Uid) (roomId : String) (st : JoinGuardState)
    (hnota : ¬ (st.joinAttempted = true ∧ st.currentRoomId = some roomId))
    (hover : st.joinAttempts + 1 > 3) :
    joinRoomGuard (some user) roomId st
        = ({ st with joinAttempts := 0, webRTCError := some tooManyAttemptsMsg },
           .thrownTooManyAttempts)
    ∧ (joinRoomGuard (some user) roomId st).1.currentRoomId = st.currentRoomId
    ∧ (joinRoomGuard (some user) roomId st).1.joinAttempted = st.joinAttempted
    ∧ (∀ st2 : JoinGuardState,
        (joinRoomGuard (some user) roomId st2).2 = .proceeded → st2.joinAttempts < 3) := by
  have hguard : (st.joinAttempted && st.currentRoomId == some roomId) = false := by
    by_cases hj : st.joinAttempted = true
    · have hcr : ¬ st.currentRoomId = some roomId := fun hc => hnota ⟨hj, hc⟩
      simp [hj, hcr]
    · have hj' : st.joinAttempted = false := by simpa using hj
      simp [hj']
  have hmain : joinRoomGuard (some user) roomId st
      = ({ st with joinAttempts := 0, webRTCError := some tooManyAttemptsMsg },
         .thrownTooManyAttempts) := by
    simp [joinRoomGuard, hguard, hover]
  refine ⟨hmain, ?_, ?_, ?_⟩
  · rw [hmain]
  · rw [hmain]
  · intro st2 h2
    by_cases hg2 : (st2.joinAttempted && st2.currentRoomId == some roomId) = true
    · simp [joinRoomGuard, hg2] at h2
    · rw [Bool.not_eq_true] at hg2
      by_cases hov : st2.joinAttempts + 1 > 3
      · simp [joinRoomGuard, hg2, hov] at h2
      · omega

/-- C9 witness: a fourth consecutive attempt aborts with the hard error
and a reset counter. -/
theorem C9_witness :
    joinRoomGuard (some "u") "r"
        { joinAttempts := 3, joinAttempted := false, currentRoomId := none
          webRTCError := none, connectionStatus := .disconnected }
      = ({ joinAttempts := 0, joinAttempted := false, currentRoomId := none
           webRTCError := some tooManyAttemptsMsg, connectionStatus := .disconnected },
         .thrownTooManyAttempts) :=
  (C9_joinAttemptsCap "u" "r" _ (by simp) (by decide)).1

/-- C10: `leaveRoom` with no current room or no authenticated user returns
immediately and changes nothing: the peer list, connection registry,
aggregate status, local stream, join counters and the relay are exactly as
before. -/
theorem C10_leaveRoomFrame (st : WebRTCState) (relay : Relay)
    (h : st.currentRoomId = none ∨ st.user = none) :
    leaveRoom st relay = (st, relay)
    ∧ (leaveRoom st relay).1.peers = st.peers
    ∧ (leaveRoom st relay).1.conns = st.conns
    ∧ (leaveRoom st relay).1.connectionStatus = st.connectionStatus
    ∧ (leaveRoom st relay).1.localStream = st.localStream
    ∧ (leaveRoom st relay).1.joinAttempts = st.joinAttempts
    ∧ (leaveRoom st relay).1.joinAttempted = st.joinAttempted
    ∧ (leaveRoom st relay).2 = relay := by
  have hmain : leaveRoom st relay = (st, relay) := by
    cases hc : st.currentRoomId with
    | none => cases hu : st.user <;> simp [leaveRoom, hc, hu]
    | some r =>
        cases hu : st.user with
        | none => simp [leaveRoom, hc, hu]
        | some u =>
            exfalso
            rcases h with h | h
            · rw [hc] at h
              simp at h
            · rw [hu] at h
              simp at h
  rw [hmain]
  exact ⟨rfl, rfl, rfl, rfl, rfl, rfl, rfl, rfl⟩

/-- C8 counterexample: when neither camera nor microphone can be
acquired, acquisition yields no stream and `joinRoom` (entered without an
existing stream) sets the error and throws — media acquisition failure is
fatal to the join, contrary to the claim. -/
theorem C8_counterexample :
    (initLocalStream { videoWorks := false, audioWorks := false } true true).stream = none
    ∧ joinRoomMediaStep { videoWorks := false, audioWorks := false } none
        = .abortedThrow "Failed to initialize local stream" := by
  decide

/-- C8 amended: acquisition degrades from camera+microphone to audio-only
to no-media, surfacing the media error exactly on total failure; but when
`joinRoom` runs with no existing stream and acquisition yields no stream,
it aborts by setting the error state and throwing (it proceeds whenever a
stream exists or is obtained). -/
theorem C8_mediaDegradation (env : MediaEnv) :
    (env.videoWorks = true → env.audioWorks = true →
        initLocalStream env true true
          = { stream := some .audioVideo, hasVideo := true, hasAudio := true, error := none })
    ∧ (env.videoWorks = false → env.audioWorks = true →
        initLocalStream env true true
          = { stream := some .audioOnly, hasVideo := false, hasAudio := true, error := none })
    ∧ (env.audioWorks = false →
        initLocalStream env true true
          = { stream := none, hasVideo := false, hasAudio := false
              error := some mediaErrorMsg })
    ∧ (∀ s, joinRoomMediaStep env (some s) = .proceeded (some s))
    ∧ ((initLocalStream env true true).stream = none →
        joinRoomMediaStep env none = .abortedThrow "Failed to initialize local stream")
    ∧ (∀ s, (initLocalStream env true true).stream = some s →
        joinRoomMediaStep env none = .proceeded (some s)) := by
  obtain ⟨v, a⟩ := env
  refine ⟨?_, ?_, ?_, ?_, ?_, ?_⟩
  · intro hv ha
    subst hv; subst ha
    decide
  · intro hv ha
    subst hv; subst ha
    decide
  · intro ha
    subst ha
    cases v <;> decide
  · intro s
    rfl
  · intro h
    simp [joinRoomMediaStep, h]
  · intro s h
    simp [joinRoomMediaStep, h]

/-- C8 witness: with a broken camera and a working microphone the join
proceeds with the degraded audio-only stream. -/
theorem C8_witness :
    joinRoomMediaStep { videoWorks := false, audioWorks := true } none
      = .proceeded (some .audioOnly) :=
  (C8_mediaDegradation { videoWorks := false, audioWorks := true }).2.2.2.2.2
    .audioOnly (by decide)

/-- C5 counterexample: participant "a" acts on the offer from "b" (an
answer is published and the remote description applied), yet the offer
message is still in the offers store afterwards; redelivering it re-runs
the remote-offer/answer round, so the claim's deletion and idempotence
both fail. -/
theorem C5_counterexample :
    c5Run1.answers = [(("a", "b"), answerFor "sdp-b")]
    ∧ c5Run1.pc.negotiationCount = 1
    ∧ c5Run1.offers = c5Offers
    ∧ c5Run2.pc.negotiationCount = 2 := by
  decide

/-- C5 amended: the offers listener never deletes the offer message it
acted on, and redelivering a processed offer to a now-stable connection
re-runs the remote-offer/answer round; answer messages are deleted after
being applied and redelivering one is a no-op; candidate messages are
removed from their bucket after being applied. -/
theorem C5_messageConsumption (selfId senderId : Uid) (pc : PC)
    (offerSdp a : Sdp) (offers answers : MsgStore) (c : Cand) (bucket : CandBucket) :
    ((handleOfferMessage selfId senderId pc offerSdp offers answers).offers = offers)
    ∧ (pc.signaling = .stable →
        (handleOfferMessage selfId senderId
            (handleOfferMessage selfId senderId pc offerSdp offers answers).pc
            offerSdp offers answers).pc.negotiationCount
          = pc.negotiationCount + 2)
    ∧ (pc.signaling = .haveLocalOffer →
        (handleAnswerMessage selfId senderId (some pc) a answers).answers
            = eraseMsg answers (senderId, selfId)
        ∧ handleAnswerMessage selfId senderId
              ((handleAnswerMessage selfId senderId (some pc) a answers).pc.getD pc) a
              ((handleAnswerMessage selfId senderId (some pc) a answers).answers)
            = { pc := (handleAnswerMessage selfId senderId (some pc) a answers).pc
                answers := (handleAnswerMessage selfId senderId (some pc) a answers).answers })
    ∧ (pc.remoteDesc ≠ none → ∀ e, bucket.find? (fun x => x.2 == c) = some e →
        e ∉ (handleCandidateMessage pc c bucket).bucket) := by
  refine ⟨rfl, ?_, ?_, ?_⟩
  · intro hs
    have hss : (pc.signaling == SignalingState.stable) = true := by simp [hs]
    have hnl : (pc.signaling == SignalingState.haveLocalOffer) = false := by
      simp [hs]
    simp [handleOfferMessage, recvOffer, processOffer, hss, hnl]
  · intro hs
    have hl : (pc.signaling == SignalingState.haveLocalOffer) = true := by simp [hs]
    constructor
    · simp [handleAnswerMessage, recvAnswer, hl]
    · simp [handleAnswerMessage, recvAnswer, hl]
  · intro h e he
    have hn : pc.remoteDesc.isNone = false := by
      cases hd : pc.remoteDesc with
      | none => exact absurd hd h
      | some d => rfl
    simp only [handleCandidateMessage, hn, Bool.false_eq_true, if_false, he,
      Option.map_some]
    intro hmem
    have := List.of_mem_filter hmem
    simp at this

/-- C5 witness: a stable connection replaying a processed offer performs
two renegotiation rounds. -/
theorem C5_witness :
    (handleOfferMessage "x" "y"
        (handleOfferMessage "x" "y" (freshPC 0 false) "o" [] []).pc
        "o" [] []).pc.negotiationCount = 0 + 2 :=
  (C5_messageConsumption "x" "y" (freshPC 0 false) "o" "a" [] [] "c" []).2.1 rfl

/-- C10 witness: with no current room, `leaveRoom` leaves a populated
state and relay untouched. -/
theorem C10_witness :
    leaveRoom
        { user := some "u", currentRoomId := none, localStream := some .audioVideo
          peers := [{ id := "p", displayName := "P" }]
          conns := [("p", freshPC 0 true)]
          connectionStatus := .connected, webRTCError := none
          joinAttempts := 2, joinAttempted := true
          isScreenSharing := false, isRecording := false, listenersSetup := true }
        { participants := [("u", "U"), ("p", "P")], offers := [], answers := []
          candidates := [] }
      = ({ user := some "u", currentRoomId := none, localStream := some .audioVideo
           peers := [{ id := "p", displayName := "P" }]
           conns := [("p", freshPC 0 true)]
           connectionStatus := .connected, webRTCError := none
           joinAttempts := 2, joinAttempted := true
           isScreenSharing := false, isRecording := false, listenersSetup := true },
         { participants := [("u", "U"), ("p", "P")], offers := [], answers := []
           candidates := [] }) :=
  (C10_leaveRoomFrame _ _ (Or.inl rfl)).1

/-! ### Roster reconciler lemmas -/

theorem snap_any_iff (snap : List (Uid × String)) (x : Uid) :
    (snap.any (fun e => e.1 == x)) = true ↔ x ∈ snap.map Prod.fst := by
  simp [List.any_eq_true, List.mem_map, beq_iff_eq]

theorem addParticipant_hasConn (u : Uid) (rid : String) (hroom : rid ≠ "")
    (st : ReconcilerState) (e : Uid × String) (i : Uid) :
    ConnsHas (addParticipant u rid st e) i ↔
      (ConnsHas st i ∨ (i = e.1 ∧ e.1 ≠ u ∧ lookupConn st.conns e.1 = none)) := by
  have hbeq : (rid == "") = false := by simpa using hroom
  by_cases hg : (e.1 != u && (lookupConn st.conns e.1).isNone) = true
  · rw [Bool.and_eq_true, bne_iff_ne, Option.isNone_iff_eq_none] at hg
    obtain ⟨hne, hnone⟩ := hg
    have hg' : (e.1 != u && (lookupConn st.conns e.1).isNone) = true := by
      simp [bne_iff_ne, hne, Option.isNone_iff_eq_none, hnone]
    have hconns : (addParticipant u rid st e).conns
        = setConn st.conns e.1 (freshPC st.nextGen true) := by
      simp only [addParticipant, hg', if_true]
      simp [createPeerConnection, hbeq, hnone]
    simp only [ConnsHas, hconns]
    by_cases hi : i = e.1
    · subst hi
      rw [lookupConn_setConn_self]
      simp [hne, hnone]
    · rw [lookupConn_setConn_ne _ _ _ _ hi]
      simp [hi]
  · have hconns : (addParticipant u rid st e).conns = st.conns := by
      simp only [addParticipant]
      rw [if_neg (by simpa using hg)]
    have hg' : ¬ (e.1 ≠ u ∧ lookupConn st.conns e.1 = none) := by
      rintro ⟨hne, hnone⟩
      exact hg (by simp [bne_iff_ne, hne, Option.isNone_iff_eq_none, hnone])
    simp only [ConnsHas, hconns]
    constructor
    · exact Or.inl
    · rintro (h | ⟨hi, hne, hnone⟩)
      · exact h
      · exact absurd ⟨hne, hnone⟩ hg'

theorem addParticipant_peers_mem (u : Uid) (rid : String)
    (st : ReconcilerState) (e : Uid × String) (i : Uid) :
    PeersHas (addParticipant u rid st e) i ↔
      (PeersHas st i
        ∨ (i = e.1 ∧ e.1 ≠ u ∧ lookupConn st.conns e.1 = none)) := by
  simp only [PeersHas]
  by_cases hg : (e.1 != u && (lookupConn st.conns e.1).isNone) = true
  · have hgc := hg
    rw [Bool.and_eq_true, bne_iff_ne, Option.isNone_iff_eq_none] at hgc
    obtain ⟨hne, hnone⟩ := hgc
    by_cases hany : (st.peers.any (fun p => p.id == e.1)) = true
    · have hex : ∃ p ∈ st.peers, p.id = e.1 := by
        simpa [List.any_eq_true, beq_iff_eq] using hany
      have hpeers : (addParticipant u rid st e).peers = st.peers := by
        simp [addParticipant, hg, hany]
      rw [hpeers]
      constructor
      · exact Or.inl
      · rintro (h | ⟨hi, _, _⟩)
        · exact h
        · subst hi
          exact hex
    · have hpeers : (addParticipant u rid st e).peers
          = st.peers ++ [{ id := e.1, displayName := e.2 }] := by
        simp [addParticipant, hg, hany]
      rw [hpeers]
      constructor
      · rintro ⟨p, hp, hid⟩
        rcases List.mem_append.mp hp with hp | hp
        · exact Or.inl ⟨p, hp, hid⟩
        · have : p = { id := e.1, displayName := e.2 } := by simpa using hp
          subst this
          exact Or.inr ⟨hid.symm, hne, hnone⟩
      · rintro (⟨p, hp, hid⟩ | ⟨hi, _, _⟩)
        · exact ⟨p, List.mem_append.mpr (Or.inl hp), hid⟩
        · exact ⟨{ id := e.1, displayName := e.2 },
            List.mem_append.mpr (Or.inr (by simp)), hi.symm⟩
  · have hg' : ¬ (e.1 ≠ u ∧ lookupConn st.conns e.1 = none) := by
      rintro ⟨hne, hnone⟩
      exact hg (by simp [bne_iff_ne, hne, Option.isNone_iff_eq_none, hnone])
    have hpeers : (addParticipant u rid st e).peers = st.peers := by
      simp only [addParticipant]
      rw [if_neg (by simpa using hg)]
    rw [hpeers]
    constructor
    · exact Or.inl
    · rintro (h | ⟨hi, hne, hnone⟩)
      · exact h
      · exact absurd ⟨hne, hnone⟩ hg'

theorem addParticipant_conns_mono (u : Uid) (rid : String) (hroom : rid ≠ "")
    (st : ReconcilerState) (e : Uid × String) (x : Uid × PC)
    (hx : x ∈ st.conns) : x ∈ (addParticipant u rid st e).conns := by
  have hbeq : (rid == "") = false := by simpa using hroom
  by_cases hg : (e.1 != u && (lookupConn st.conns e.1).isNone) = true
  · have hgc := hg
    rw [Bool.and_eq_true, bne_iff_ne, Option.isNone_iff_eq_none] at hgc
    obtain ⟨hne, hnone⟩ := hgc
    have hconns : (addParticipant u rid st e).conns
        = setConn st.conns e.1 (freshPC st.nextGen true) := by
      simp only [addParticipant, hg, if_true]
      simp [createPeerConnection, hbeq, hnone]
    rw [hconns, setConn, eraseConn_of_lookup_none st.conns e.1 hnone]
    exact List.mem_append.mpr (Or.inl hx)
  · have hconns : (addParticipant u rid st e).conns = st.conns := by
      simp only [addParticipant]
      rw [if_neg (by simpa using hg)]
    rw [hconns]
    exact hx

theorem reconcileAdd_spec (u : Uid) (rid : String) (hroom : rid ≠ "") :
    ∀ (snap : List (Uid × String)) (st : ReconcilerState),
      (∀ p ∈ st.peers, p.id ≠ u) →
      (∀ k, ConnsHas st k → PeersHas st k) →
      ((∀ p ∈ (reconcileAdd u rid snap st).peers, p.id ≠ u)
        ∧ (∀ k, ConnsHas (reconcileAdd u rid snap st) k
            → PeersHas (reconcileAdd u rid snap st) k)
        ∧ (∀ i, ConnsHas (reconcileAdd u rid snap st) i
            ↔ (ConnsHas st i ∨ (i ∈ snap.map Prod.fst ∧ i ≠ u)))
        ∧ (∀ i, PeersHas (reconcileAdd u rid snap st) i
            ↔ (PeersHas st i ∨ (i ∈ snap.map Prod.fst ∧ i ≠ u)))) := by
  intro snap
  induction snap with
  | nil =>
      intro st h1 h2
      refine ⟨h1, h2, ?_, ?_⟩ <;> intro i <;> simp [reconcileAdd]
  | cons e rest ih =>
      intro st h1 h2
      have hfold : reconcileAdd u rid (e :: rest) st
          = reconcileAdd u rid rest (addParticipant u rid st e) := rfl
      have hstep_conn := fun i => addParticipant_hasConn u rid hroom st e i
      have hstep_peer := fun i => addParticipant_peers_mem u rid st e i
      have h1' : ∀ p ∈ (addParticipant u rid st e).peers, p.id ≠ u := by
        intro p hp
        rcases (hstep_peer p.id).mp ⟨p, hp, rfl⟩ with ⟨q, hq, hqid⟩ | ⟨hid, hne, _⟩
        · exact hqid ▸ h1 q hq
        · exact hid ▸ hne
      have h2' : ∀ k, ConnsHas (addParticipant u rid st e) k
          → PeersHas (addParticipant u rid st e) k := by
        intro k hk
        rcases (hstep_conn k).mp hk with hk0 | ⟨hi, hne, hnone⟩
        · exact (hstep_peer k).mpr (Or.inl (h2 k hk0))
        · exact (hstep_peer k).mpr (Or.inr ⟨hi, hne, hnone⟩)
      obtain ⟨g1, g2, g3, g4⟩ := ih (addParticipant u rid st e) h1' h2'
      rw [hfold]
      refine ⟨g1, g2, ?_, ?_⟩
      · intro i
        rw [g3 i, hstep_conn i]
        simp only [List.map_cons, List.mem_cons]
        constructor
        · rintro ((h | ⟨hi, hne, hnone⟩) | ⟨hr, hne⟩)
          · exact Or.inl h
          · exact Or.inr ⟨Or.inl hi, hi ▸ hne⟩
          · exact Or.inr ⟨Or.inr hr, hne⟩
        · rintro (h | ⟨hi | hr, hne⟩)
          · exact Or.inl (Or.inl h)
          · by_cases hnone : lookupConn st.conns e.1 = none
            · exact Or.inl (Or.inr ⟨hi, hi ▸ hne, hnone⟩)
            · refine Or.inl (Or.inl ?_)
              rw [hi]
              exact hnone
          · exact Or.inr ⟨hr, hne⟩
      · intro i
        rw [g4 i, hstep_peer i]
        simp only [List.map_cons, List.mem_cons]
        constructor
        · rintro ((h | ⟨hi, hne, hnone⟩) | ⟨hr, hne⟩)
          · exact Or.inl h
          · exact Or.inr ⟨Or.inl hi, hi ▸ hne⟩
          · exact Or.inr ⟨Or.inr hr, hne⟩
        · rintro (h | ⟨hi | hr, hne⟩)
          · exact Or.inl (Or.inl h)
          · by_cases hnone : lookupConn st.conns e.1 = none
            · exact Or.inl (Or.inr ⟨hi, hi ▸ hne, hnone⟩)
            · refine Or.inl (Or.inl ?_)
              rw [hi]
              exact h2 e.1 hnone
          · exact Or.inr ⟨hr, hne⟩

theorem addParticipant_conns_new (u : Uid) (rid : String) (hroom : rid ≠ "")
    (st : ReconcilerState) (e : Uid × String) :
    ∀ x ∈ (addParticipant u rid st e).conns, x ∈ st.conns ∨ x.2.initiator = true := by
  have hbeq : (rid == "") = false := by simpa using hroom
  intro x hx
  by_cases hg : (e.1 != u && (lookupConn st.conns e.1).isNone) = true
  · have hgc := hg
    rw [Bool.and_eq_true, bne_iff_ne, Option.isNone_iff_eq_none] at hgc
    obtain ⟨hne, hnone⟩ := hgc
    have hconns : (addParticipant u rid st e).conns
        = setConn st.conns e.1 (freshPC st.nextGen true) := by
      simp only [addParticipant, hg, if_true]
      simp [createPeerConnection, hbeq, hnone]
    rw [hconns, setConn, eraseConn_of_lookup_none st.conns e.1 hnone] at hx
    rcases List.mem_append.mp hx with hx | hx
    · exact Or.inl hx
    · have : x = (e.1, freshPC st.nextGen true) := by simpa using hx
      subst this
      exact Or.inr rfl
  · have hconns : (addParticipant u rid st e).conns = st.conns := by
      simp only [addParticipant]
      rw [if_neg (by simpa using hg)]
    rw [hconns] at hx
    exact Or.inl hx

theorem reconcileAdd_conns_new (u : Uid) (rid : String) (hroom : rid ≠ "") :
    ∀ (snap : List (Uid × String)) (st : ReconcilerState),
      ∀ x ∈ (reconcileAdd u rid snap st).conns, x ∈ st.conns ∨ x.2.initiator = true := by
  intro snap
  induction snap with
  | nil => intro st x hx; exact Or.inl hx
  | cons e rest ih =>
      intro st x hx
      rcases ih (addParticipant u rid st e) x hx with hx1 | hinit
      · exact addParticipant_conns_new u rid hroom st e x hx1
      · exact Or.inr hinit

theorem reconcileAdd_conns_mono (u : Uid) (rid : String) (hroom : rid ≠ "") :
    ∀ (snap : List (Uid × String)) (st : ReconcilerState) (x : Uid × PC),
      x ∈ st.conns → x ∈ (reconcileAdd u rid snap st).conns := by
  intro snap
  induction snap with
  | nil => intro st x hx; exact hx
  | cons e rest ih =>
      intro st x hx
      exact ih (addParticipant u rid st e) x
        (addParticipant_conns_mono u rid hroom st e x hx)

theorem reconcile_spec (u : Uid) (rid : String) (hroom : rid ≠ "")
    (snap : List (Uid × String)) (hsnap : snap ≠ [])
    (st : ReconcilerState) (hInv : ReconInv u st) :
    (∀ i, PeersHas (reconcile u rid snap st).1 i ↔ (i ∈ snap.map Prod.fst ∧ i ≠ u))
    ∧ (∀ i, ConnsHas (reconcile u rid snap st).1 i ↔ (i ∈ snap.map Prod.fst ∧ i ≠ u))
    ∧ (∀ x ∈ st.conns, x.1 ∉ snap.map Prod.fst →
        { x.2 with isClosed := true } ∈ (reconcile u rid snap st).2)
    ∧ ReconInv u (reconcile u rid snap st).1 := by
  obtain ⟨hSelf, hSub⟩ := hInv
  have hne : snap.isEmpty = false := by
    simpa [List.isEmpty_iff] using hsnap
  obtain ⟨g1, g2, g3, g4⟩ := reconcileAdd_spec u rid hroom snap st hSelf hSub
  have hres : reconcile u rid snap st
      = ({ peers := (reconcileAdd u rid snap st).peers.filter
              (fun p => snap.any (fun e => e.1 == p.id))
           conns := (reconcileAdd u rid snap st).conns.filter
              (fun e => snap.any (fun s => s.1 == e.1))
           nextGen := (reconcileAdd u rid snap st).nextGen },
         ((reconcileAdd u rid snap st).conns.filter
              (fun e => !(snap.any (fun s => s.1 == e.1)))).map
            (fun e => { e.2 with isClosed := true })) := by
    simp [reconcile, hne]
  have hpeerFinal : ∀ i, PeersHas (reconcile u rid snap st).1 i
      ↔ (i ∈ snap.map Prod.fst ∧ i ≠ u) := by
    intro i
    rw [hres]
    constructor
    · rintro ⟨p, hp, hid⟩
      have hmem := List.mem_filter.mp hp
      have hin : i ∈ snap.map Prod.fst := by
        rw [← snap_any_iff]
        rw [← hid]
        exact hmem.2
      refine ⟨hin, ?_⟩
      rcases (g4 p.id).mp ⟨p, hmem.1, rfl⟩ with hold | ⟨_, hneu⟩
      · obtain ⟨q, hq, hqid⟩ := hold
        rw [← hid]
        exact hqid ▸ hSelf q hq
      · rw [← hid]
        exact hneu
    · rintro ⟨hin, hneu⟩
      obtain ⟨p, hp, hid⟩ := (g4 i).mpr (Or.inr ⟨hin, hneu⟩)
      refine ⟨p, List.mem_filter.mpr ⟨hp, ?_⟩, hid⟩
      rw [snap_any_iff, hid]
      exact hin
  have hconnFinal : ∀ i, ConnsHas (reconcile u rid snap st).1 i
      ↔ (i ∈ snap.map Prod.fst ∧ i ≠ u) := by
    intro i
    rw [hres]
    simp only [ConnsHas]
    rw [lookupConn_filter_key _ (fun x => snap.any (fun s => s.1 == x)) i]
    by_cases hin : i ∈ snap.map Prod.fst
    · have hb : (snap.any (fun s => s.1 == i)) = true := (snap_any_iff snap i).mpr hin
      rw [if_pos hb]
      constructor
      · intro hcc
        refine ⟨hin, ?_⟩
        rcases (g3 i).mp hcc with hold | ⟨_, hneu⟩
        · have := hSub i hold
          obtain ⟨q, hq, hqid⟩ := this
          exact hqid ▸ hSelf q hq
        · exact hneu
      · rintro ⟨_, hneu⟩
        exact (g3 i).mpr (Or.inr ⟨hin, hneu⟩)
    · have hb : (snap.any (fun s => s.1 == i)) = false := by
        rcases Bool.eq_false_or_eq_true (snap.any (fun s => s.1 == i)) with h | h
        · exact absurd ((snap_any_iff snap i).mp h) hin
        · exact h
      rw [if_neg (by simp [hb])]
      simp [hin]
  refine ⟨hpeerFinal, hconnFinal, ?_, ?_, ?_⟩
  · intro x hx hout
    rw [hres]
    have hx1 : x ∈ (reconcileAdd u rid snap st).conns :=
      reconcileAdd_conns_mono u rid hroom snap st x hx
    have hb : (snap.any (fun s => s.1 == x.1)) = false := by
      rcases Bool.eq_false_or_eq_true (snap.any (fun s => s.1 == x.1)) with h | h
      · exact absurd ((snap_any_iff snap x.1).mp h) hout
      · exact h
    refine List.mem_map.mpr ⟨x, List.mem_filter.mpr ⟨hx1, by simp [hb]⟩, rfl⟩
  · intro p hp
    have hmem := List.mem_filter.mp (by
      have := hp
      rw [hres] at this
      exact this)
    exact g1 p hmem.1
  · intro k hk
    have := (hconnFinal k).mp hk
    exact (hpeerFinal k).mpr this

theorem reconcile_inv (u : Uid) (rid : String) (hroom : rid ≠ "")
    (snap : List (Uid × String)) (st : ReconcilerState) (hInv : ReconInv u st) :
    ReconInv u (reconcile u rid snap st).1 := by
  by_cases h : snap = []
  · subst h
    simpa [reconcile] using hInv
  · exact (reconcile_spec u rid hroom snap h st hInv).2.2.2

theorem reconcileSeq_inv (u : Uid) (rid : String) (hroom : rid ≠ "") :
    ∀ (snaps : List (List (Uid × String))) (st : ReconcilerState),
      ReconInv u st → ReconInv u (reconcileSeq u rid snaps st) := by
  intro snaps
  induction snaps with
  | nil => intro st h; exact h
  | cons s rest ih =>
      intro st h
      exact ih (reconcile u rid s st).1 (reconcile_inv u rid hroom s st h)

theorem reconInit_inv (u : Uid) : ReconInv u reconInit := by
  constructor
  · intro p hp
    simp [reconInit] at hp
  · intro k hk
    simp [ConnsHas, reconInit, lookupConn] at hk

/-- C4: for every nonempty presence snapshot, the participants listener
leaves the peer list and the connection registry holding exactly the
roster ids minus self (new entries get a peer record and an initiator
connection, departed ids are dropped), every connection whose id left the
roster is closed, the reconciler invariant is preserved, and from the
initial state any history of snapshots ending in this one converges to
exactly the roster minus self. -/
theorem C4_rosterReconciler (u : Uid) (rid : String) (hroom : rid ≠ "")
    (snap : List (Uid × String)) (hsnap : snap ≠ [])
    (st : ReconcilerState) (hInv : ReconInv u st) :
    (∀ i, PeersHas (reconcile u rid snap st).1 i ↔ (i ∈ snap.map Prod.fst ∧ i ≠ u))
    ∧ (∀ i, ConnsHas (reconcile u rid snap st).1 i ↔ (i ∈ snap.map Prod.fst ∧ i ≠ u))
    ∧ (∀ x ∈ st.conns, x.1 ∉ snap.map Prod.fst →
        { x.2 with isClosed := true } ∈ (reconcile u rid snap st).2)
    ∧ (∀ x ∈ (reconcile u rid snap st).1.conns, x ∈ st.conns ∨ x.2.initiator = true)
    ∧ ReconInv u (reconcile u rid snap st).1
    ∧ (∀ snaps : List (List (Uid × String)), ∀ i,
        PeersHas (reconcileSeq u rid (snaps ++ [snap]) reconInit) i
          ↔ (i ∈ snap.map Prod.fst ∧ i ≠ u)) := by
  obtain ⟨p1, p2, p3, p4⟩ := reconcile_spec u rid hroom snap hsnap st hInv
  have pnew : ∀ x ∈ (reconcile u rid snap st).1.conns,
      x ∈ st.conns ∨ x.2.initiator = true := by
    have hne : snap.isEmpty = false := by
      simpa [List.isEmpty_iff] using hsnap
    intro x hx
    have hx1 : x ∈ (reconcileAdd u rid snap st).conns := by
      have hconns : (reconcile u rid snap st).1.conns
          = (reconcileAdd u rid snap st).conns.filter
              (fun e => snap.any (fun s => s.1 == e.1)) := by
        simp [reconcile, hne]
      rw [hconns] at hx
      exact (List.mem_filter.mp hx).1
    exact reconcileAdd_conns_new u rid hroom snap st x hx1
  refine ⟨p1, p2, p3, pnew, p4, ?_⟩
  intro snaps i
  have hbase : ReconInv u (reconcileSeq u rid snaps reconInit) :=
    reconcileSeq_inv u rid hroom snaps reconInit (reconInit_inv u)
  have hfold : reconcileSeq u rid (snaps ++ [snap]) reconInit
      = (reconcile u rid snap (reconcileSeq u rid snaps reconInit)).1 := by
    simp [reconcileSeq, List.foldl_append]
  rw [hfold]
  exact (reconcile_spec u rid hroom snap hsnap
    (reconcileSeq u rid snaps reconInit) hbase).1 i

/-- C4 witness: from the initial state, a snapshot listing self and one
remote participant leaves exactly that participant as a peer. -/
theorem C4_witness :
    PeersHas (reconcile "me" "r1" [("me", "Me"), ("p1", "P")] reconInit).1 "p1" :=
  ((C4_rosterReconciler "me" "r1" (by decide) [("me", "Me"), ("p1", "P")]
      (by simp) reconInit (reconInit_inv "me")).1 "p1").mpr
    ⟨by simp, by decide⟩

/-- C1 counterexample: with participants "a" < "b" both in
have-local-offer, delivering B's offer to A, then A's answer to B, then
A's (stale) offer to B does not reach the claimed convergent state: B, by
then stable, processes A's rolled-back offer as a new remote offer, so
the outcome depends on the event arrival order (the order delivering A's
offer to B before A's answer does converge). -/
theorem C1_counterexample :
    glareConverged "offer-b"
        (glareRun "a" "b" "offer-a" "offer-b"
          [.offerToA, .offerToB, .answerToB])
    ∧ ¬ glareConverged "offer-b"
        (glareRun "a" "b" "offer-a" "offer-b"
          [.offerToA, .answerToB, .offerToB])
    ∧ (glareRun "a" "b" "offer-a" "offer-b"
          [.offerToA, .answerToB, .offerToB]).pcB.remoteDesc = some "offer-a" := by
  simp only [glareConverged]
  decide

/-- C1 amended: on glare the tie-break is deterministic — the side with
the lexicographically greater id ignores the incoming offer and the side
with the lesser id rolls back its local offer and answers the incoming
one — and for two simultaneously-initiating participants A < B the system
converges to the single stable connection with A's offer rolled back and
B's accepted for every arrival order in which B receives A's offer while
still holding its own local offer (before applying A's answer). -/
theorem C1_glareTieBreak (idA idB : Uid) (h : idA.data < idB.data) (oA oB : Sdp) :
    (∀ pc : PC, pc.signaling = .haveLocalOffer →
        recvOffer idB idA pc oA
          = { pc := pc, publishedAnswer := none, action := .ignoredGlareWin })
    ∧ (∀ pc : PC, pc.signaling = .haveLocalOffer →
        recvOffer idA idB pc oB
          = { pc :=
                { pc with
                  localDesc := some (answerFor oB)
                  remoteDesc := some oB
                  signaling := .stable
                  negotiationCount := pc.negotiationCount + 1 }
              publishedAnswer := some (answerFor oB)
              action := .rolledBackAndAnswered })
    ∧ glareConverged oB (glareRun idA idB oA oB [.offerToA, .offerToB, .answerToB])
    ∧ glareConverged oB (glareRun idA idB oA oB [.offerToB, .offerToA, .answerToB]) := by
  have hBA : ¬ (idB.data < idA.data) := lt_asymm h
  refine ⟨?_, ?_, ?_, ?_⟩
  · intro pc hs
    obtain ⟨g, ini, sig, ice, ld, rd, ac, nc, cl⟩ := pc
    simp only at hs
    subst hs
    simp [recvOffer, h]
  · intro pc hs
    obtain ⟨g, ini, sig, ice, ld, rd, ac, nc, cl⟩ := pc
    simp only at hs
    subst hs
    simp [recvOffer, hBA, rollbackLocal, processOffer]
  · simp [glareRun, List.foldl, glareStep, glareInit, recvOffer, recvAnswer,
      processOffer, rollbackLocal, freshPC, glareConverged, h, hBA]
  · simp [glareRun, List.foldl, glareStep, glareInit, recvOffer, recvAnswer,
      processOffer, rollbackLocal, freshPC, glareConverged, h, hBA]

/-- C1 witness: for the concrete participants "a" < "b" the tie-break
converges when A's offer reaches B before A's answer. -/
theorem C1_witness :
    glareConverged "ob" (glareRun "a" "b" "oa" "ob"
      [.offerToA, .offerToB, .answerToB]) :=
  (C1_glareTieBreak "a" "b" (by decide) "oa" "ob").2.2.1

end VideoConf
